import Mathlib

/-!
Verification of scripts/notarize_rest.py.

Shallow embedding: bytes are `Nat` values, 32-bit words are `Nat` values
reduced modulo 4294967296, network and subprocess effects are supplied by an
explicit environment, and each run produces a trace of events together with
an optional exit code (`none` meaning the process has not exited, as in an
unbounded polling loop).
-/

/-! ## SHA-256 (model of hashlib.sha256 as used by sha256_file) -/

/-- Reduce a natural number to a 32-bit word. -/
def w32 (n : Nat) : Nat := n % 4294967296

/-- 32-bit right rotation. -/
def rotr (n x : Nat) : Nat := w32 ((x >>> n) ||| (x <<< (32 - n)))

def bigSigma0 (x : Nat) : Nat := (rotr 2 x) ^^^ (rotr 13 x) ^^^ (rotr 22 x)

def bigSigma1 (x : Nat) : Nat := (rotr 6 x) ^^^ (rotr 11 x) ^^^ (rotr 25 x)

def smallSigma0 (x : Nat) : Nat := (rotr 7 x) ^^^ (rotr 18 x) ^^^ (x >>> 3)

def smallSigma1 (x : Nat) : Nat := (rotr 17 x) ^^^ (rotr 19 x) ^^^ (x >>> 10)

def chFn (x y z : Nat) : Nat := (x &&& y) ^^^ ((x ^^^ 4294967295) &&& z)

def majFn (x y z : Nat) : Nat := (x &&& y) ^^^ (x &&& z) ^^^ (y &&& z)

/-- The 64 SHA-256 round constants of FIPS 180-4 (decimal values of the
words 428a2f98, 71374491, ... c67178f2). -/
def sha256K : List Nat :=
  [1116352408, 1899447441, 3049323471, 3921009573, 961987163,
   1508970993, 2453635748, 2870763221, 3624381080, 310598401,
   607225278, 1426881987, 1925078388, 2162078206, 2614888103,
   3248222580, 3835390401, 4022224774, 264347078, 604807628,
   770255983, 1249150122, 1555081692, 1996064986, 2554220882,
   2821834349, 2952996808, 3210313671, 3336571891, 3584528711,
   113926993, 338241895, 666307205, 773529912, 1294757372,
   1396182291, 1695183700, 1986661051, 2177026350, 2456956037,
   2730485921, 2820302411, 3259730800, 3345764771, 3516065817,
   3600352804, 4094571909, 275423344, 430227734, 506948616,
   659060556, 883997877, 958139571, 1322822218, 1537002063,
   1747873779, 1955562222, 2024104815, 2227730452, 2361852424,
   2428436474, 2756734187, 3204031479, 3329325298]

/-- The SHA-256 initial hash value: the eight words 6a09e667, bb67ae85,
3c6ef372, a54ff53a, 510e527f, 9b05688c, 1f83d9ab, 5be0cd19 in decimal. -/
def sha256H0 : List Nat :=
  [1779033703, 3144134277, 1013904242, 2773480762,
   1359893119, 2600822924, 528734635, 1541459225]

/-- Big-endian packing of bytes into 32-bit words. -/
def toWords : List Nat → List Nat
  | a :: b :: c :: d :: rest =>
      w32 ((a <<< 24) + (b <<< 16) + (c <<< 8) + d) :: toWords rest
  | _ => []

/-- The next word of the SHA-256 message schedule, from the words so far. -/
def nextW (ws : List Nat) : Nat :=
  let n := ws.length
  (smallSigma1 (ws.getD (n - 2) 0) + ws.getD (n - 7) 0 +
     smallSigma0 (ws.getD (n - 15) 0) + ws.getD (n - 16) 0) % 4294967296

/-- Extend the message schedule by `k` further words. -/
def extendWs : Nat → List Nat → List Nat
  | 0, ws => ws
  | k + 1, ws => extendWs k (ws ++ [nextW ws])

/-- The eight working registers of the SHA-256 compression loop. -/
structure Regs where
  a : Nat
  b : Nat
  c : Nat
  d : Nat
  e : Nat
  f : Nat
  g : Nat
  h : Nat

/-- One round of the SHA-256 compression loop. -/
def roundStep (r : Regs) (kw : Nat × Nat) : Regs :=
  let t1 := (r.h + bigSigma1 r.e + chFn r.e r.f r.g + kw.1 + kw.2) % 4294967296
  let t2 := (bigSigma0 r.a + majFn r.a r.b r.c) % 4294967296
  ⟨(t1 + t2) % 4294967296, r.a, r.b, r.c, (r.d + t1) % 4294967296, r.e, r.f, r.g⟩

/-- SHA-256 compression: absorb one 64-byte block into the hash state. -/
def compress (hv : List Nat) (block : List Nat) : List Nat :=
  let ws := extendWs 48 (toWords block)
  let init : Regs :=
    ⟨hv.getD 0 0, hv.getD 1 0, hv.getD 2 0, hv.getD 3 0,
     hv.getD 4 0, hv.getD 5 0, hv.getD 6 0, hv.getD 7 0⟩
  let fin := (sha256K.zip ws).foldl roundStep init
  [(hv.getD 0 0 + fin.a) % 4294967296, (hv.getD 1 0 + fin.b) % 4294967296,
   (hv.getD 2 0 + fin.c) % 4294967296, (hv.getD 3 0 + fin.d) % 4294967296,
   (hv.getD 4 0 + fin.e) % 4294967296, (hv.getD 5 0 + fin.f) % 4294967296,
   (hv.getD 6 0 + fin.g) % 4294967296, (hv.getD 7 0 + fin.h) % 4294967296]

/-- Fuelled worker for `processBuf` (structural recursion so the kernel can
evaluate it on concrete inputs). -/
def processBufF : Nat → List Nat → List Nat → List Nat × List Nat
  | 0, hv, t => (hv, t)
  | f + 1, hv, t =>
      if t.length < 64 then (hv, t)
      else processBufF f (compress hv (t.take 64)) (t.drop 64)

/-- Absorb every complete 64-byte block of `t` into the hash state, returning
the new state and the remaining (shorter than 64 bytes) tail. -/
def processBuf (hv t : List Nat) : List Nat × List Nat := processBufF t.length hv t

/-- The state of an incremental hashlib.sha256 object: hash state of the
blocks absorbed so far, the unabsorbed buffer, and the total byte count. -/
structure Ctx where
  hs : List Nat
  buf : List Nat
  total : Nat

/-- hashlib's `update`: append data to the buffer, absorbing complete blocks. -/
def shaUpdate (c : Ctx) (data : List Nat) : Ctx :=
  let pr := processBuf c.hs (c.buf ++ data)
  ⟨pr.1, pr.2, c.total + data.length⟩

/-- hashlib's fresh sha256 object. -/
def shaInit : Ctx := ⟨sha256H0, [], 0⟩

/-- The 8-byte big-endian encoding of the message length in bits. -/
def lenBE (len : Nat) : List Nat :=
  let bits := 8 * len
  [(bits >>> 56) % 256, (bits >>> 48) % 256, (bits >>> 40) % 256,
   (bits >>> 32) % 256, (bits >>> 24) % 256, (bits >>> 16) % 256,
   (bits >>> 8) % 256, bits % 256]

/-- SHA-256 padding for a message of `len` bytes: 0x80, zeros up to 56 mod 64,
then the bit length. -/
def padBytes (len : Nat) : List Nat :=
  128 :: (List.replicate ((119 - len % 64) % 64) 0 ++ lenBE len)

/-- Lower-case hex digit. -/
def hexChar (n : Nat) : Char :=
  if n < 10 then Char.ofNat (48 + n) else Char.ofNat (87 + n)

/-- Eight hex digits of a 32-bit word, most significant first. -/
def wordHex (w : Nat) : List Char :=
  [hexChar ((w >>> 28) % 16), hexChar ((w >>> 24) % 16),
   hexChar ((w >>> 20) % 16), hexChar ((w >>> 16) % 16),
   hexChar ((w >>> 12) % 16), hexChar ((w >>> 8) % 16),
   hexChar ((w >>> 4) % 16), hexChar (w % 16)]

/-- Hex string of a list of 32-bit words. -/
def hexWords (hs : List Nat) : String :=
  String.mk (hs.foldr (fun w acc => wordHex w ++ acc) [])

/-- hashlib's `hexdigest`: pad the pending input and emit the hash in hex. -/
def hexdigest (c : Ctx) : String :=
  hexWords (processBuf c.hs (c.buf ++ padBytes c.total)).1

/-- Fuelled worker splitting a list into chunks of `n` elements. -/
def chunkF (n : Nat) : Nat → List Nat → List (List Nat)
  | 0, _ => []
  | f + 1, l => if l = [] then [] else l.take n :: chunkF n f (l.drop n)

/-- The successive chunks returned by `iter(lambda: f.read(65536), b"")`:
65536-byte reads until the file is exhausted. -/
def chunksRead (l : List Nat) : List (List Nat) := chunkF 65536 l.length l

/-- Split a (padded) message into its 64-byte blocks. -/
def toBlocks (l : List Nat) : List (List Nat) := chunkF 64 l.length l

/-- `sha256_file` from the source: stream the file bytes in 65536-byte chunks
through an incremental sha256 object and return the hex digest. -/
def sha256_file (bytes : List Nat) : String :=
  hexdigest ((chunksRead bytes).foldl shaUpdate shaInit)

/-- Spec-side definition: the SHA-256 hash of the whole byte content, per
FIPS 180-4 — pad the full message, fold the compression function over its
64-byte blocks, and hex-encode the result. -/
def sha256Spec (m : List Nat) : String :=
  hexWords ((toBlocks (m ++ padBytes m.length)).foldl compress sha256H0)

/-! ## Credential token (make_jwt) -/

/-- The JWT payload dict built by make_jwt. -/
structure JwtPayload where
  iss : String
  iat : Nat
  exp : Nat
  aud : String
deriving DecidableEq

/-- The signed token: payload plus the key identifier placed in the header.
The ES256 signature itself is opaque cryptography and is not modelled; the
key file contents only feed that signature. -/
structure JwtToken where
  payload : JwtPayload
  kid : String
deriving DecidableEq

/-- `make_jwt`: reads the key file (first argument; used only for the
signature) and signs a payload with issuer, issued-at `now`, expiry
`now + 1200`, and the fixed audience. -/
def make_jwt (_keyContents keyId issuerId : String) (now : Nat) : JwtToken :=
  { payload := { iss := issuerId, iat := now, exp := now + 1200,
                 aud := "appstoreconnect-v1" },
    kid := keyId }

/-! ## Status polling (poll_status) -/

/-- Exceptions the operations inside the polling try-block can raise:
a connection failure from the GET, an HTTPError from raise_for_status,
a JSON decoding error, or a KeyError/TypeError from the field access. -/
inductive PyExn where
  | connectionError (msg : String)
  | httpError (code : Nat)
  | jsonError (msg : String)
  | keyError (key : String)
deriving DecidableEq

/-- Whether `except Exception` catches the exception: true exactly when its
Python class derives from Exception. All four classes above do
(requests.ConnectionError and requests.HTTPError via OSError,
json decoding errors via ValueError, and KeyError directly). -/
def PyExn.catchableByExcept : PyExn → Bool
  | .connectionError _ => true
  | .httpError _ => true
  | .jsonError _ => true
  | .keyError _ => true

/-- What the environment does to one polling iteration: either some
operation in the try-block raises, or the full request/parse pipeline
succeeds and yields a status string. -/
inductive PollStep where
  | raised (e : PyExn)
  | gotStatus (s : String)
deriving DecidableEq

/-- Observable events of the polling loop. -/
inductive PollEvent where
  | request (tok : JwtToken)
  | printedStatus (attempt : Nat) (s : String)
  | caught (attempt : Nat) (e : PyExn)
  | slept (interval : Nat)
deriving DecidableEq

/-- The body of poll_status's `while True:` loop, driven by the environment
steps. Result: the events emitted and either an uncaught exception
(`Except.error`), or the returned status (`some`), or `none` when the
supplied steps ran out with the loop still going. -/
def pollGo (tok : JwtToken) (interval : Nat) :
    Nat → List PollStep → Except PyExn (List PollEvent × Option String)
  | _, [] => .ok ([], none)
  | attempt, step :: rest =>
    let att := attempt + 1
    match step with
    | .gotStatus s =>
        if s = "Accepted" ∨ s = "Rejected" ∨ s = "Invalid" then
          .ok ([.request tok, .printedStatus att s], some s)
        else
          match pollGo tok interval att rest with
          | .ok (evs, r) =>
              .ok (.request tok :: .printedStatus att s :: .slept interval :: evs, r)
          | .error e => .error e
    | .raised e =>
        if e.catchableByExcept then
          match pollGo tok interval att rest with
          | .ok (evs, r) =>
              .ok (.request tok :: .caught att e :: .slept interval :: evs, r)
          | .error e2 => .error e2
        else .error e

/-- `poll_status`: the polling loop started at attempt 0. -/
def poll_status (tok : JwtToken) (interval : Nat) (steps : List PollStep) :
    Except PyExn (List PollEvent × Option String) :=
  pollGo tok interval 0 steps

/-! ## Upload (upload_to_s3) -/

/-- The configuration of the boto3 S3 client built by upload_to_s3. -/
structure S3Config where
  accessKeyId : String
  secretAccessKey : String
  sessionToken : String
  region : String
  accelerate : Bool
deriving DecidableEq

/-- `upload_to_s3`: build the client from the submission record's upload
credentials, with the hard-coded region "us-east-1" and the accelerated
endpoint, then upload the file to the record's bucket and object.
Returns `none` when a required dict key is absent (an uncaught KeyError). -/
def upload_to_s3 (attrs : List (String × String)) (_filePath : String) :
    Option (S3Config × String × String) :=
  match attrs.lookup "awsAccessKeyId", attrs.lookup "awsSecretAccessKey",
        attrs.lookup "awsSessionToken", attrs.lookup "bucket",
        attrs.lookup "object" with
  | some ak, some sk, some st, some bucket, some obj =>
      some (⟨ak, sk, st, "us-east-1", true⟩, bucket, obj)
  | _, _, _, _, _ => none

/-! ## Main pipeline (check_deps, submit, get_log, staple, main) -/

/-- One issue of the diagnostic log. -/
structure Issue where
  severity : String
  message : String
  path : String
deriving DecidableEq

/-- The parsed command-line arguments. -/
structure Args where
  key : String
  keyId : String
  issuerId : String
  file : String
  pollInterval : Nat
deriving DecidableEq

/-- Everything the outside world feeds one run: which imports fail, the
clock, the file bytes, the submission response, the poll responses, the
service-side log and whether fetching it raises (get_log's raise_for_status,
its second GET and its .json() run outside any try-block, so such an
exception aborts the run), and the exit codes of the two stapler
subprocesses. -/
structure Env where
  missingDeps : List String
  now : Nat
  fileBytes : List Nat
  submissionId : String
  uploadAttrs : List (String × String)
  pollSteps : List PollStep
  logIssues : List Issue
  logFetchErr : Option PyExn
  stapleRc : Nat
  validateRc : Nat

/-- Observable events of a run. -/
inductive Event where
  | printedMissing (deps : List String)
  | tokenCreated (tok : JwtToken)
  | digestComputed (d : String)
  | submitted (tok : JwtToken) (name digest : String)
  | uploaded (cfg : S3Config) (file bucket obj : String)
  | poll (ev : PollEvent)
  | printedFinal (s : String)
  | logFetched (tok : JwtToken)
  | warningPrinted (msg path : String)
  | issuePrinted (sev msg path : String)
  | stapler (sub file : String)
deriving DecidableEq

/-- `Path(file_path).name`: the final path component. -/
def baseName (s : String) : String := (s.splitOn "/").getLastD s

/-- `staple`: run `xcrun stapler staple`, exiting 1 on a non-zero return
code, then `xcrun stapler validate`, exiting 1 on a non-zero return code.
Returns the subprocess events and `some 1` if the run exits there. -/
def staple (file : String) (rc1 rc2 : Nat) : List Event × Option Nat :=
  if rc1 ≠ 0 then ([.stapler "staple" file], some 1)
  else if rc2 ≠ 0 then ([.stapler "staple" file, .stapler "validate" file], some 1)
  else ([.stapler "staple" file, .stapler "validate" file], none)

/-- `main`: dependency check, token creation, digest, submission, upload,
polling, log fetch and the accepted/not-accepted branch. The log fetch is
attempted with the token; when it raises (get_log has no exception
handler), the run dies there with a non-zero exit, before any issue
printing or stapling. Produces the event trace and the exit code (`none`
when the polling loop never ends). -/
def mainRun (args : Args) (env : Env) : List Event × Option Nat :=
  if env.missingDeps ≠ [] then ([.printedMissing env.missingDeps], some 1)
  else
    let tok := make_jwt args.key args.keyId args.issuerId env.now
    let digest := sha256_file env.fileBytes
    let e1 : List Event :=
      [.tokenCreated tok, .digestComputed digest,
       .submitted tok (baseName args.file) digest]
    match upload_to_s3 env.uploadAttrs args.file with
    | none => (e1, some 1)
    | some (cfg, bucket, obj) =>
      let e2 := e1 ++ [.uploaded cfg args.file bucket obj]
      match poll_status tok args.pollInterval env.pollSteps with
      | .error _ => (e2, some 1)
      | .ok (pevs, none) => (e2 ++ pevs.map Event.poll, none)
      | .ok (pevs, some status) =>
        let e3 := e2 ++ pevs.map Event.poll ++
          [.printedFinal status, .logFetched tok]
        match env.logFetchErr with
        | some _ => (e3, some 1)
        | none =>
        if status = "Accepted" then
          let warnings := env.logIssues.filter (fun i => i.severity == "warning")
          let e4 := e3 ++ warnings.map (fun i => Event.warningPrinted i.message i.path)
          let st := staple args.file env.stapleRc env.validateRc
          (e4 ++ st.1, match st.2 with | some n => some n | none => some 0)
        else
          (e3 ++ env.logIssues.map
              (fun i => Event.issuePrinted i.severity i.message i.path),
           some 1)

/-! ## Event classifiers -/

def isTokenCreatedEv : Event → Bool
  | .tokenCreated _ => true
  | _ => false

def isStaplerEv : Event → Bool
  | .stapler _ _ => true
  | _ => false

def isWarnEv : Event → Bool
  | .warningPrinted _ _ => true
  | _ => false

def isIssueEv : Event → Bool
  | .issuePrinted _ _ _ => true
  | _ => false

/-- The credential token an event carries, when it is the token creation or
one of the remote calls (submission creation, a polling request, log
retrieval). -/
def evTokenOf : Event → Option JwtToken
  | .tokenCreated t => some t
  | .submitted t _ _ => some t
  | .poll (.request t) => some t
  | .logFetched t => some t
  | _ => none

/-! ## Theorems: polling (claims C1, C4, C9) -/

/-- Any status the polling loop returns is terminal. -/
theorem pollGo_ok_terminal (tok : JwtToken) (interval : Nat) :
    ∀ (steps : List PollStep) (att : Nat) (evs : List PollEvent) (s : String),
      pollGo tok interval att steps = .ok (evs, some s) →
      s = "Accepted" ∨ s = "Rejected" ∨ s = "Invalid" := by
  intro steps
  induction steps with
  | nil =>
    intro att evs s h
    simp [pollGo] at h
  | cons step rest ih =>
    intro att evs s h
    cases step with
    | gotStatus s2 =>
      by_cases hterm : s2 = "Accepted" ∨ s2 = "Rejected" ∨ s2 = "Invalid"
      · rw [pollGo, if_pos hterm] at h
        obtain ⟨-, h2⟩ := Prod.mk.injEq .. ▸ (Except.ok.injEq .. ▸ h)
        exact (Option.some.injEq .. ▸ h2) ▸ hterm
      · rw [pollGo, if_neg hterm] at h
        cases hrec : pollGo tok interval (att + 1) rest with
        | ok pr =>
          rw [hrec] at h
          obtain ⟨evs2, r⟩ := pr
          simp only [Except.ok.injEq, Prod.mk.injEq] at h
          exact ih (att + 1) evs2 s (by rw [hrec, h.2])
        | error e => rw [hrec] at h; cases h
    | raised e =>
      rw [pollGo, if_pos (by cases e <;> rfl)] at h
      cases hrec : pollGo tok interval (att + 1) rest with
      | ok pr =>
        rw [hrec] at h
        obtain ⟨evs2, r⟩ := pr
        simp only [Except.ok.injEq, Prod.mk.injEq] at h
        exact ih (att + 1) evs2 s (by rw [hrec, h.2])
      | error e2 => rw [hrec] at h; cases h

/-- C1: whenever the status-polling operation returns a final status, that
status is terminal — the loop only exits on Accepted, Rejected or Invalid,
never on a non-terminal status. -/
theorem poll_status_returns_terminal (tok : JwtToken) (interval : Nat)
    (steps : List PollStep) (evs : List PollEvent) (s : String)
    (h : poll_status tok interval steps = .ok (evs, some s)) :
    s = "Accepted" ∨ s = "Rejected" ∨ s = "Invalid" :=
  pollGo_ok_terminal tok interval steps 0 evs s h

/-- Witness for C1 at a concrete polling run that answers In Progress once
and then Accepted. -/
theorem poll_status_returns_terminal_witness :
    "Accepted" = "Accepted" ∨ "Accepted" = "Rejected" ∨ "Accepted" = "Invalid" :=
  poll_status_returns_terminal ⟨⟨"iss", 0, 1200, "appstoreconnect-v1"⟩, "kid"⟩ 30
    [PollStep.gotStatus "In Progress", PollStep.gotStatus "Accepted"]
    [PollEvent.request ⟨⟨"iss", 0, 1200, "appstoreconnect-v1"⟩, "kid"⟩,
     PollEvent.printedStatus 1 "In Progress", PollEvent.slept 30,
     PollEvent.request ⟨⟨"iss", 0, 1200, "appstoreconnect-v1"⟩, "kid"⟩,
     PollEvent.printedStatus 2 "Accepted"]
    "Accepted" (by rfl)

/-- C4: a transient network error in a polling iteration is caught and
logged, and the loop continues with the next iteration after sleeping for
the fixed interval, rather than aborting the run. -/
theorem poll_continues_after_network_error (tok : JwtToken) (interval att : Nat)
    (msg : String) (rest : List PollStep) (evs : List PollEvent)
    (r : Option String)
    (h : pollGo tok interval (att + 1) rest = .ok (evs, r)) :
    pollGo tok interval att (PollStep.raised (PyExn.connectionError msg) :: rest)
      = .ok (PollEvent.request tok ::
               PollEvent.caught (att + 1) (PyExn.connectionError msg) ::
               PollEvent.slept interval :: evs, r) := by
  rw [pollGo, if_pos (by rfl), h]

/-- Witness for C4: a connection error on the first attempt, then Accepted. -/
theorem poll_continues_after_network_error_witness :
    pollGo ⟨⟨"iss", 0, 1200, "appstoreconnect-v1"⟩, "kid"⟩ 30 0
        (PollStep.raised (PyExn.connectionError "timeout") ::
          [PollStep.gotStatus "Accepted"])
      = .ok (PollEvent.request ⟨⟨"iss", 0, 1200, "appstoreconnect-v1"⟩, "kid"⟩ ::
               PollEvent.caught 1 (PyExn.connectionError "timeout") ::
               PollEvent.slept 30 ::
               [PollEvent.request ⟨⟨"iss", 0, 1200, "appstoreconnect-v1"⟩, "kid"⟩,
                PollEvent.printedStatus 2 "Accepted"],
             some "Accepted") :=
  poll_continues_after_network_error ⟨⟨"iss", 0, 1200, "appstoreconnect-v1"⟩, "kid"⟩
    30 0 "timeout" [PollStep.gotStatus "Accepted"]
    [PollEvent.request ⟨⟨"iss", 0, 1200, "appstoreconnect-v1"⟩, "kid"⟩,
     PollEvent.printedStatus 2 "Accepted"] (some "Accepted") (by rfl)

/-- C9: the polling loop never propagates an exception to its caller —
every exception its iterations can raise (connection failures, HTTP error
statuses from raise_for_status, JSON decoding errors, missing response
fields) is an Exception subclass caught by the bare `except Exception`
handler, so polling always ends in `.ok`, and any returned status is one
of Accepted, Rejected or Invalid. -/
theorem poll_status_never_raises (tok : JwtToken) (interval : Nat)
    (steps : List PollStep) :
    ∃ evs r, poll_status tok interval steps = .ok (evs, r) ∧
      ∀ s, r = some s → s = "Accepted" ∨ s = "Rejected" ∨ s = "Invalid" := by
  have main : ∀ (st : List PollStep) (att : Nat),
      ∃ evs r, pollGo tok interval att st = .ok (evs, r) := by
    intro st
    induction st with
    | nil => intro att; exact ⟨[], none, rfl⟩
    | cons step rest ih =>
      intro att
      obtain ⟨evs, r, hrec⟩ := ih (att + 1)
      cases step with
      | gotStatus s2 =>
        by_cases hterm : s2 = "Accepted" ∨ s2 = "Rejected" ∨ s2 = "Invalid"
        · exact ⟨_, some s2, by rw [pollGo, if_pos hterm]⟩
        · exact ⟨_, r, by rw [pollGo, if_neg hterm, hrec]⟩
      | raised e =>
        exact ⟨_, r, by rw [pollGo, if_pos (by cases e <;> rfl), hrec]⟩
  obtain ⟨evs, r, h⟩ := main steps 0
  exact ⟨evs, r, h, fun s hs =>
    pollGo_ok_terminal tok interval steps 0 evs s (by rw [h, hs])⟩

/-! ## Theorems: credential token (claim C6) -/

/-- C6: in every token the token-creation operation produces, the expiry
timestamp of the payload is exactly 1200 seconds after the issued-at
timestamp of the same payload. -/
theorem make_jwt_expiry_is_iat_plus_1200 (key keyId issuerId : String) (now : Nat) :
    (make_jwt key keyId issuerId now).payload.exp
      = (make_jwt key keyId issuerId now).payload.iat + 1200 := rfl

/-! ## Theorems: upload (claim C10) -/

/-- C10: the upload operation always configures the fixed region
"us-east-1" and the accelerated transfer endpoint, and it reads only the
access key, secret key, session token, bucket and object name from the
submission record: two records agreeing on those five keys produce the
same upload, whatever else (such as a region field) they contain. -/
theorem upload_to_s3_fixed_region (a1 a2 : List (String × String)) (path : String)
    (h : ∀ k ∈ ["awsAccessKeyId", "awsSecretAccessKey", "awsSessionToken",
                "bucket", "object"], a1.lookup k = a2.lookup k) :
    upload_to_s3 a1 path = upload_to_s3 a2 path ∧
      ∀ cfg bucket obj, upload_to_s3 a1 path = some (cfg, bucket, obj) →
        cfg.region = "us-east-1" ∧ cfg.accelerate = true := by
  have h1 := h "awsAccessKeyId" (by simp)
  have h2 := h "awsSecretAccessKey" (by simp)
  have h3 := h "awsSessionToken" (by simp)
  have h4 := h "bucket" (by simp)
  have h5 := h "object" (by simp)
  constructor
  · unfold upload_to_s3
    rw [h1, h2, h3, h4, h5]
  · intro cfg bucket obj hsome
    unfold upload_to_s3 at hsome
    split at hsome
    · simp only [Option.some.injEq, Prod.mk.injEq] at hsome
      rw [← hsome.1]
      exact ⟨rfl, rfl⟩
    · cases hsome

/-- Witness for C10: two concrete submission records that differ in a
region field but agree on the five used keys give the same upload. -/
theorem upload_to_s3_fixed_region_witness :
    upload_to_s3
        [("awsAccessKeyId", "AK"), ("awsSecretAccessKey", "SK"),
         ("awsSessionToken", "ST"), ("bucket", "notary-bucket"),
         ("object", "obj-1"), ("region", "eu-west-1")] "build/app.dmg"
      = upload_to_s3
        [("awsAccessKeyId", "AK"), ("awsSecretAccessKey", "SK"),
         ("awsSessionToken", "ST"), ("bucket", "notary-bucket"),
         ("object", "obj-1"), ("region", "cn-north-1")] "build/app.dmg" :=
  (upload_to_s3_fixed_region
    [("awsAccessKeyId", "AK"), ("awsSecretAccessKey", "SK"),
     ("awsSessionToken", "ST"), ("bucket", "notary-bucket"),
     ("object", "obj-1"), ("region", "eu-west-1")]
    [("awsAccessKeyId", "AK"), ("awsSecretAccessKey", "SK"),
     ("awsSessionToken", "ST"), ("bucket", "notary-bucket"),
     ("object", "obj-1"), ("region", "cn-north-1")]
    "build/app.dmg" (by decide)).1

/-! ## Theorems: digest (claim C5) -/

/-- The fuel argument of `processBufF` is irrelevant once it covers the
input length. -/
theorem processBufF_congr : ∀ (f1 f2 : Nat) (hv t : List Nat),
    t.length ≤ f1 → t.length ≤ f2 → processBufF f1 hv t = processBufF f2 hv t := by
  intro f1
  induction f1 with
  | zero =>
    intro f2 hv t h1 h2
    have ht : t = [] := List.eq_nil_of_length_eq_zero (Nat.le_zero.mp h1)
    subst ht
    cases f2 <;> simp [processBufF]
  | succ a ih =>
    intro f2 hv t h1 h2
    cases f2 with
    | zero =>
      have ht : t = [] := List.eq_nil_of_length_eq_zero (Nat.le_zero.mp h2)
      subst ht
      simp [processBufF]
    | succ b =>
      by_cases h64 : t.length < 64
      · simp [processBufF, h64]
      · simp only [processBufF, if_neg h64]
        exact ih b (compress hv (t.take 64)) (t.drop 64)
          (by simp only [List.length_drop]; omega)
          (by simp only [List.length_drop]; omega)

/-- Unfolding equation of `processBuf`. -/
theorem processBuf_eq (hv t : List Nat) :
    processBuf hv t = if t.length < 64 then (hv, t)
      else processBuf (compress hv (t.take 64)) (t.drop 64) := by
  by_cases h64 : t.length < 64
  · rw [if_pos h64]
    unfold processBuf
    cases hl : t.length with
    | zero => rfl
    | succ n =>
      simp only [processBufF]
      rw [if_pos h64]
  · rw [if_neg h64]
    unfold processBuf
    obtain ⟨m, hm⟩ : ∃ m, t.length = m + 1 := ⟨t.length - 1, by omega⟩
    rw [hm]
    simp only [processBufF]
    rw [if_neg h64]
    exact processBufF_congr m (t.drop 64).length (compress hv (t.take 64)) (t.drop 64)
      (by simp only [List.length_drop]; omega)
      (Nat.le_refl _)

/-- Absorbing `t ++ u` is absorbing `t` and then continuing with the
leftover buffer followed by `u`. -/
theorem processBuf_append (hv t u : List Nat) :
    processBuf hv (t ++ u)
      = processBuf (processBuf hv t).1 ((processBuf hv t).2 ++ u) := by
  by_cases h64 : t.length < 64
  · rw [processBuf_eq hv t, if_pos h64]
  · rw [processBuf_eq hv t, if_neg h64, processBuf_eq hv (t ++ u),
      if_neg (by simp only [List.length_append]; omega)]
    have htake : (t ++ u).take 64 = t.take 64 := by
      rw [List.take_append_eq_append_take]
      simp [Nat.sub_eq_zero_of_le (Nat.le_of_not_lt h64)]
    have hdrop : (t ++ u).drop 64 = t.drop 64 ++ u := by
      rw [List.drop_append_eq_append_drop]
      simp [Nat.sub_eq_zero_of_le (Nat.le_of_not_lt h64)]
    rw [htake, hdrop]
    exact processBuf_append (compress hv (t.take 64)) (t.drop 64) u
termination_by t.length
decreasing_by simp only [List.length_drop]; omega

/-- The leftover buffer is always shorter than one block. -/
theorem processBuf_snd_short (hv t : List Nat) : (processBuf hv t).2.length < 64 := by
  by_cases h64 : t.length < 64
  · rw [processBuf_eq hv t, if_pos h64]
    exact h64
  · rw [processBuf_eq hv t, if_neg h64]
    exact processBuf_snd_short (compress hv (t.take 64)) (t.drop 64)
termination_by t.length
decreasing_by simp only [List.length_drop]; omega

/-- The fuel argument of `chunkF` is irrelevant once it covers the list. -/
theorem chunkF_congr (n : Nat) (hn : 0 < n) : ∀ (f1 f2 : Nat) (l : List Nat),
    l.length ≤ f1 → l.length ≤ f2 → chunkF n f1 l = chunkF n f2 l := by
  intro f1
  induction f1 with
  | zero =>
    intro f2 l h1 h2
    have hl : l = [] := List.eq_nil_of_length_eq_zero (Nat.le_zero.mp h1)
    subst hl
    cases f2 <;> simp [chunkF]
  | succ a ih =>
    intro f2 l h1 h2
    cases f2 with
    | zero =>
      have hl : l = [] := List.eq_nil_of_length_eq_zero (Nat.le_zero.mp h2)
      subst hl
      simp [chunkF]
    | succ b =>
      by_cases hl : l = []
      · simp [chunkF, hl]
      · have hp := List.length_pos.mpr hl
        simp only [chunkF, if_neg hl]
        congr 1
        exact ih b (l.drop n)
          (by simp only [List.length_drop]; omega)
          (by simp only [List.length_drop]; omega)

/-- Unfolding equation of `chunksRead`. -/
theorem chunksRead_eq (l : List Nat) :
    chunksRead l = if l = [] then []
      else l.take 65536 :: chunksRead (l.drop 65536) := by
  by_cases hl : l = []
  · subst hl
    simp [chunksRead, chunkF]
  · rw [if_neg hl]
    unfold chunksRead
    have hp := List.length_pos.mpr hl
    obtain ⟨m, hm⟩ : ∃ m, l.length = m + 1 := ⟨l.length - 1, by omega⟩
    rw [hm]
    simp only [chunkF, if_neg hl]
    congr 1
    exact chunkF_congr 65536 (by omega) m (l.drop 65536).length (l.drop 65536)
      (by simp only [List.length_drop]; omega)
      (by simp only [List.length_drop]; omega)

/-- Unfolding equation of `toBlocks`. -/
theorem toBlocks_eq (l : List Nat) :
    toBlocks l = if l = [] then [] else l.take 64 :: toBlocks (l.drop 64) := by
  by_cases hl : l = []
  · subst hl
    simp [toBlocks, chunkF]
  · rw [if_neg hl]
    unfold toBlocks
    have hp := List.length_pos.mpr hl
    obtain ⟨m, hm⟩ : ∃ m, l.length = m + 1 := ⟨l.length - 1, by omega⟩
    rw [hm]
    simp only [chunkF, if_neg hl]
    congr 1
    exact chunkF_congr 64 (by omega) m (l.drop 64).length (l.drop 64)
      (by simp only [List.length_drop]; omega)
      (by simp only [List.length_drop]; omega)

/-- Two successive updates amount to one update on the concatenation. -/
theorem shaUpdate_append (c : Ctx) (a b : List Nat) :
    shaUpdate (shaUpdate c a) b = shaUpdate c (a ++ b) := by
  simp only [shaUpdate]
  rw [← List.append_assoc, processBuf_append c.hs (c.buf ++ a) b]
  simp [List.length_append, Nat.add_assoc]

/-- Folding update over the 65536-byte read chunks is one update on the
whole file contents. -/
theorem foldl_chunksRead (l : List Nat) (c : Ctx) (hb : c.buf.length < 64) :
    (chunksRead l).foldl shaUpdate c = shaUpdate c l := by
  rw [chunksRead_eq]
  by_cases hl : l = []
  · rw [if_pos hl, hl]
    show c = shaUpdate c []
    simp only [shaUpdate, List.append_nil, List.length_nil, Nat.add_zero]
    rw [processBuf_eq c.hs c.buf, if_pos hb]
  · rw [if_neg hl, List.foldl_cons,
      foldl_chunksRead (l.drop 65536) (shaUpdate c (l.take 65536))
        (by simp only [shaUpdate]; exact processBuf_snd_short _ _),
      shaUpdate_append, List.take_append_drop]
termination_by l.length
decreasing_by
  have := List.length_pos.mpr hl
  simp only [List.length_drop]
  omega

/-- On an input whose length is a multiple of 64, absorbing the blocks is a
fold of the compression function over the 64-byte blocks. -/
theorem processBuf_blocks (l hv : List Nat) (hmod : l.length % 64 = 0) :
    (processBuf hv l).1 = (toBlocks l).foldl compress hv := by
  rw [toBlocks_eq]
  by_cases hl : l = []
  · rw [if_pos hl, hl, processBuf_eq, if_pos (by simp)]
    rfl
  · have hp := List.length_pos.mpr hl
    have hge : 64 ≤ l.length := by omega
    rw [if_neg hl, processBuf_eq, if_neg (by omega), List.foldl_cons]
    exact processBuf_blocks (l.drop 64) (compress hv (l.take 64))
      (by simp only [List.length_drop]; omega)
termination_by l.length
decreasing_by
  have := List.length_pos.mpr hl
  simp only [List.length_drop]
  omega

/-- The padded message length is a multiple of 64. -/
theorem padBytes_len (n : Nat) : (n + (padBytes n).length) % 64 = 0 := by
  simp only [padBytes, lenBE, List.length_cons, List.length_append,
    List.length_replicate, List.length_nil]
  omega

/-- C5: the digest operation, streaming the file in 65536-byte chunks,
computes exactly the SHA-256 hash of the file's full byte contents, and the
digest of a zero-byte file is the well-known hash of the empty input.
(Both sides are pure functions of the bytes, so the digest is deterministic
across runs on identical bytes.) -/
theorem sha256_file_matches_whole_hash :
    (∀ bytes : List Nat, sha256_file bytes = sha256Spec bytes) ∧
      sha256_file []
        = "e3b0c44298fc1c149afbf4c8996fb92427ae41e4649b934ca495991b7852b855" := by
  constructor
  · intro bytes
    unfold sha256_file sha256Spec
    rw [foldl_chunksRead bytes shaInit (by simp [shaInit])]
    unfold hexdigest
    simp only [shaUpdate, shaInit, List.nil_append, Nat.zero_add]
    rw [← processBuf_append sha256H0 bytes (padBytes bytes.length)]
    rw [processBuf_blocks (bytes ++ padBytes bytes.length) sha256H0
      (by simp only [List.length_append]
          have := padBytes_len bytes.length
          omega)]
  · rfl

/-! ## Theorems: main pipeline (claims C2, C3, C7, C8) -/

/-- Mapped events all failing a classifier filter to nothing. -/
theorem filter_map_none {α : Type} (f : α → Event) (p : Event → Bool)
    (l : List α) (h : ∀ x, p (f x) = false) : (l.map f).filter p = [] := by
  induction l with
  | nil => rfl
  | cons x xs ih => simp [List.filter_cons, h, ih]

/-- Mapped events all passing a classifier filter to themselves. -/
theorem filter_map_all {α : Type} (f : α → Event) (p : Event → Bool)
    (l : List α) (h : ∀ x, p (f x) = true) : (l.map f).filter p = l.map f := by
  induction l with
  | nil => rfl
  | cons x xs ih => simp [List.filter_cons, h, ih]

/-- Every request event the polling loop emits carries the loop's token. -/
theorem pollGo_request_token (tok : JwtToken) (interval : Nat) :
    ∀ (steps : List PollStep) (att : Nat) (evs : List PollEvent) (r : Option String),
      pollGo tok interval att steps = .ok (evs, r) →
      ∀ t, PollEvent.request t ∈ evs → t = tok := by
  intro steps
  induction steps with
  | nil =>
    intro att evs r h t ht
    simp only [pollGo, Except.ok.injEq, Prod.mk.injEq] at h
    rw [← h.1] at ht
    cases ht
  | cons step rest ih =>
    intro att evs r h t ht
    cases step with
    | gotStatus s2 =>
      by_cases hterm : s2 = "Accepted" ∨ s2 = "Rejected" ∨ s2 = "Invalid"
      · rw [pollGo, if_pos hterm] at h
        simp only [Except.ok.injEq, Prod.mk.injEq] at h
        rw [← h.1] at ht
        simp at ht
        exact ht
      · rw [pollGo, if_neg hterm] at h
        cases hrec : pollGo tok interval (att + 1) rest with
        | ok pr =>
          obtain ⟨evs2, r2⟩ := pr
          rw [hrec] at h
          simp only [Except.ok.injEq, Prod.mk.injEq] at h
          rw [← h.1] at ht
          simp at ht
          rcases ht with ht | ht
          · exact ht
          · exact ih (att + 1) evs2 r2 hrec t ht
        | error e => rw [hrec] at h; cases h
    | raised e =>
      rw [pollGo, if_pos (by cases e <;> rfl)] at h
      cases hrec : pollGo tok interval (att + 1) rest with
      | ok pr =>
        obtain ⟨evs2, r2⟩ := pr
        rw [hrec] at h
        simp only [Except.ok.injEq, Prod.mk.injEq] at h
        rw [← h.1] at ht
        simp at ht
        rcases ht with ht | ht
        · exact ht
        · exact ih (att + 1) evs2 r2 hrec t ht
      | error e2 => rw [hrec] at h; cases h

/-- C8: when a required runtime dependency is missing, the run prints the
missing packages and exits with code 1 at once — the trace holds no token
creation, digest, submission, upload or polling event. -/
theorem missing_deps_exit_before_network (args : Args) (env : Env)
    (h : env.missingDeps ≠ []) :
    mainRun args env = ([Event.printedMissing env.missingDeps], some 1) := by
  rw [mainRun, if_pos h]

/-- Witness for C8: a run missing pyjwt. -/
theorem missing_deps_exit_before_network_witness :
    mainRun ⟨"k.p8", "KEYID", "ISSUER", "f.dmg", 30⟩
        ⟨["pyjwt"], 0, [], "sub1", [], [], [], none, 0, 0⟩
      = ([Event.printedMissing ["pyjwt"]], some 1) :=
  missing_deps_exit_before_network ⟨"k.p8", "KEYID", "ISSUER", "f.dmg", 30⟩
    ⟨["pyjwt"], 0, [], "sub1", [], [], [], none, 0, 0⟩ (by simp)

/-- C3 (amended): when polling ends Rejected or Invalid, the process exits
with code 1 and never invokes either stapling subprocess; when the
diagnostic log fetch succeeds it prints every issue with its severity and
path, whereas a raising log fetch aborts the run (still exit 1) before any
issue is printed. -/
theorem rejected_or_invalid_no_staple (args : Args) (env : Env) (cfg : S3Config)
    (bucket obj : String) (pevs : List PollEvent) (s : String)
    (hdeps : env.missingDeps = [])
    (hup : upload_to_s3 env.uploadAttrs args.file = some (cfg, bucket, obj))
    (hpoll : poll_status (make_jwt args.key args.keyId args.issuerId env.now)
        args.pollInterval env.pollSteps = .ok (pevs, some s))
    (hs : s = "Rejected" ∨ s = "Invalid") :
    (mainRun args env).2 = some 1 ∧
      (mainRun args env).1.filter isStaplerEv = [] ∧
      (env.logFetchErr = none →
        (mainRun args env).1.filter isIssueEv
          = env.logIssues.map
              (fun i => Event.issuePrinted i.severity i.message i.path)) ∧
      (env.logFetchErr ≠ none →
        (mainRun args env).1.filter isIssueEv = []) := by
  have hsA : ¬ s = "Accepted" := by
    rcases hs with h | h <;> subst h <;> decide
  rcases hlf : env.logFetchErr with _ | e
  · simp only [mainRun, hdeps, ne_eq, not_true_eq_false, if_false, hup, hpoll,
      hlf, if_neg hsA]
    refine ⟨by trivial, ?_, fun _ => ?_, fun h => h.elim⟩
    · simp only [List.filter_append]
      rw [filter_map_none Event.poll isStaplerEv pevs (fun pe => rfl),
        filter_map_none (fun i => Event.issuePrinted i.severity i.message i.path)
          isStaplerEv env.logIssues (fun i => rfl)]
      simp [isStaplerEv]
    · simp only [List.filter_append]
      rw [filter_map_none Event.poll isIssueEv pevs (fun pe => rfl),
        filter_map_all (fun i => Event.issuePrinted i.severity i.message i.path)
          isIssueEv env.logIssues (fun i => rfl)]
      simp [isIssueEv]
  · simp only [mainRun, hdeps, ne_eq, not_true_eq_false, if_false, hup, hpoll, hlf]
    refine ⟨by trivial, ?_, fun h => Option.noConfusion h, fun _ => ?_⟩
    · simp only [List.filter_append]
      rw [filter_map_none Event.poll isStaplerEv pevs (fun pe => rfl)]
      simp [isStaplerEv]
    · simp only [List.filter_append]
      rw [filter_map_none Event.poll isIssueEv pevs (fun pe => rfl)]
      simp [isIssueEv]

/-- Witness for the amended C3: a rejected run with one error issue whose
log fetch succeeds. -/
theorem rejected_or_invalid_no_staple_witness :
    (mainRun ⟨"k.p8", "KEYID", "ISSUER", "f.dmg", 30⟩
        ⟨[], 5, [], "sub1",
         [("awsAccessKeyId", "AK"), ("awsSecretAccessKey", "SK"),
          ("awsSessionToken", "ST"), ("bucket", "B"), ("object", "O")],
         [PollStep.gotStatus "Rejected"],
         [⟨"error", "The binary is not signed", "app.dmg/a"⟩],
         none, 0, 0⟩).2 = some 1 ∧
      (mainRun ⟨"k.p8", "KEYID", "ISSUER", "f.dmg", 30⟩
        ⟨[], 5, [], "sub1",
         [("awsAccessKeyId", "AK"), ("awsSecretAccessKey", "SK"),
          ("awsSessionToken", "ST"), ("bucket", "B"), ("object", "O")],
         [PollStep.gotStatus "Rejected"],
         [⟨"error", "The binary is not signed", "app.dmg/a"⟩],
         none, 0, 0⟩).1.filter isStaplerEv = [] ∧
      (mainRun ⟨"k.p8", "KEYID", "ISSUER", "f.dmg", 30⟩
        ⟨[], 5, [], "sub1",
         [("awsAccessKeyId", "AK"), ("awsSecretAccessKey", "SK"),
          ("awsSessionToken", "ST"), ("bucket", "B"), ("object", "O")],
         [PollStep.gotStatus "Rejected"],
         [⟨"error", "The binary is not signed", "app.dmg/a"⟩],
         none, 0, 0⟩).1.filter isIssueEv
        = [Event.issuePrinted "error" "The binary is not signed" "app.dmg/a"] := by
  have h := rejected_or_invalid_no_staple ⟨"k.p8", "KEYID", "ISSUER", "f.dmg", 30⟩
    ⟨[], 5, [], "sub1",
     [("awsAccessKeyId", "AK"), ("awsSecretAccessKey", "SK"),
      ("awsSessionToken", "ST"), ("bucket", "B"), ("object", "O")],
     [PollStep.gotStatus "Rejected"],
     [⟨"error", "The binary is not signed", "app.dmg/a"⟩],
     none, 0, 0⟩
    ⟨"AK", "SK", "ST", "us-east-1", true⟩ "B" "O"
    [PollEvent.request (make_jwt "k.p8" "KEYID" "ISSUER" 5),
     PollEvent.printedStatus 1 "Rejected"]
    "Rejected" rfl rfl rfl (Or.inl rfl)
  exact ⟨h.1, h.2.1, h.2.2.1 rfl⟩

/-- Counterexample to C3 as stated: polling ends Rejected and the service
log holds one issue, but the log fetch raises (HTTP 401 on the logs
request, for instance from an expired token), so the run dies inside
get_log: no issue is ever printed with its severity and path, although the
exit code is still non-zero and no stapler runs. -/
theorem rejected_log_fetch_failure_cex :
    poll_status (make_jwt "k.p8" "KEYID" "ISSUER" 5) 30
        [PollStep.gotStatus "Rejected"]
      = .ok ([PollEvent.request (make_jwt "k.p8" "KEYID" "ISSUER" 5),
              PollEvent.printedStatus 1 "Rejected"], some "Rejected") ∧
      (mainRun ⟨"k.p8", "KEYID", "ISSUER", "f.dmg", 30⟩
        ⟨[], 5, [], "sub1",
         [("awsAccessKeyId", "AK"), ("awsSecretAccessKey", "SK"),
          ("awsSessionToken", "ST"), ("bucket", "B"), ("object", "O")],
         [PollStep.gotStatus "Rejected"],
         [⟨"error", "The binary is not signed", "app.dmg/a"⟩],
         some (PyExn.httpError 401), 0, 0⟩).1.filter isIssueEv = [] ∧
      (mainRun ⟨"k.p8", "KEYID", "ISSUER", "f.dmg", 30⟩
        ⟨[], 5, [], "sub1",
         [("awsAccessKeyId", "AK"), ("awsSecretAccessKey", "SK"),
          ("awsSessionToken", "ST"), ("bucket", "B"), ("object", "O")],
         [PollStep.gotStatus "Rejected"],
         [⟨"error", "The binary is not signed", "app.dmg/a"⟩],
         some (PyExn.httpError 401), 0, 0⟩).2 = some 1 :=
  ⟨rfl, by decide, by decide⟩

/-- C2 (amended): when polling ends Accepted the log fetch is attempted;
when it succeeds, the warning-severity issues are extracted and reported,
the staple subprocess is invoked exactly once, and the validate subprocess
is invoked exactly once — after the staple invocation — when the staple
invocation exits zero and not at all when it fails; when the log fetch
raises, the run aborts with exit code 1 and neither stapling subprocess is
invoked. -/
theorem accepted_staple_then_validate (args : Args) (env : Env) (cfg : S3Config)
    (bucket obj : String) (pevs : List PollEvent)
    (hdeps : env.missingDeps = [])
    (hup : upload_to_s3 env.uploadAttrs args.file = some (cfg, bucket, obj))
    (hpoll : poll_status (make_jwt args.key args.keyId args.issuerId env.now)
        args.pollInterval env.pollSteps = .ok (pevs, some "Accepted")) :
    Event.logFetched (make_jwt args.key args.keyId args.issuerId env.now)
        ∈ (mainRun args env).1 ∧
      (env.logFetchErr = none →
        (mainRun args env).1.filter isWarnEv
          = (env.logIssues.filter (fun i => i.severity == "warning")).map
              (fun i => Event.warningPrinted i.message i.path) ∧
        (mainRun args env).1.filter isStaplerEv
          = (if env.stapleRc = 0
             then [Event.stapler "staple" args.file,
                   Event.stapler "validate" args.file]
             else [Event.stapler "staple" args.file])) ∧
      (env.logFetchErr ≠ none →
        (mainRun args env).2 = some 1 ∧
        (mainRun args env).1.filter isStaplerEv = []) := by
  rcases hlf : env.logFetchErr with _ | e
  · simp only [mainRun, hdeps, ne_eq, not_true_eq_false, if_false, hup, hpoll,
      hlf, eq_self_iff_true, if_true]
    refine ⟨by simp, fun _ => ⟨?_, ?_⟩, fun h => h.elim⟩
    · simp only [List.filter_append]
      rw [filter_map_none Event.poll isWarnEv pevs (fun pe => rfl),
        filter_map_all (fun i => Event.warningPrinted i.message i.path) isWarnEv
          (env.logIssues.filter (fun i => i.severity == "warning")) (fun i => rfl)]
      by_cases h1 : env.stapleRc = 0 <;> by_cases h2 : env.validateRc = 0 <;>
        simp [staple, h1, h2, isWarnEv]
    · simp only [List.filter_append]
      rw [filter_map_none Event.poll isStaplerEv pevs (fun pe => rfl),
        filter_map_none (fun i => Event.warningPrinted i.message i.path) isStaplerEv
          (env.logIssues.filter (fun i => i.severity == "warning")) (fun i => rfl)]
      by_cases h1 : env.stapleRc = 0 <;> by_cases h2 : env.validateRc = 0 <;>
        simp [staple, h1, h2, isStaplerEv]
  · simp only [mainRun, hdeps, ne_eq, not_true_eq_false, if_false, hup, hpoll, hlf]
    refine ⟨by simp, fun h => Option.noConfusion h, fun _ => ⟨by trivial, ?_⟩⟩
    simp only [List.filter_append]
    rw [filter_map_none Event.poll isStaplerEv pevs (fun pe => rfl)]
    simp [isStaplerEv]

/-- Witness for the amended C2: an accepted run with one warning issue,
a succeeding log fetch and both stapler steps succeeding. -/
theorem accepted_staple_then_validate_witness :
    (mainRun ⟨"k.p8", "KEYID", "ISSUER", "f.dmg", 30⟩
        ⟨[], 5, [], "sub1",
         [("awsAccessKeyId", "AK"), ("awsSecretAccessKey", "SK"),
          ("awsSessionToken", "ST"), ("bucket", "B"), ("object", "O")],
         [PollStep.gotStatus "Accepted"],
         [⟨"warning", "minor issue", "app.dmg/b"⟩],
         none, 0, 0⟩).1.filter isStaplerEv
      = [Event.stapler "staple" "f.dmg", Event.stapler "validate" "f.dmg"] :=
  ((accepted_staple_then_validate ⟨"k.p8", "KEYID", "ISSUER", "f.dmg", 30⟩
    ⟨[], 5, [], "sub1",
     [("awsAccessKeyId", "AK"), ("awsSecretAccessKey", "SK"),
      ("awsSessionToken", "ST"), ("bucket", "B"), ("object", "O")],
     [PollStep.gotStatus "Accepted"],
     [⟨"warning", "minor issue", "app.dmg/b"⟩],
     none, 0, 0⟩
    ⟨"AK", "SK", "ST", "us-east-1", true⟩ "B" "O"
    [PollEvent.request (make_jwt "k.p8" "KEYID" "ISSUER" 5),
     PollEvent.printedStatus 1 "Accepted"]
    rfl rfl rfl).2.1 rfl).2

/-- Counterexample to C2 as stated: in a run whose polling ends Accepted
(and whose log fetch succeeds) but whose staple subprocess exits non-zero,
the validate subprocess is never invoked — the stapler events are the
single staple call — so staple and validate are not each invoked exactly
once; the run exits 1. -/
theorem accepted_staple_failure_skips_validate_cex :
    poll_status (make_jwt "k.p8" "KEYID" "ISSUER" 5) 30
        [PollStep.gotStatus "Accepted"]
      = .ok ([PollEvent.request (make_jwt "k.p8" "KEYID" "ISSUER" 5),
              PollEvent.printedStatus 1 "Accepted"], some "Accepted") ∧
      (mainRun ⟨"k.p8", "KEYID", "ISSUER", "f.dmg", 30⟩
        ⟨[], 5, [], "sub1",
         [("awsAccessKeyId", "AK"), ("awsSecretAccessKey", "SK"),
          ("awsSessionToken", "ST"), ("bucket", "B"), ("object", "O")],
         [PollStep.gotStatus "Accepted"], [], none, 1, 0⟩).1.filter isStaplerEv
        = [Event.stapler "staple" "f.dmg"] ∧
      (mainRun ⟨"k.p8", "KEYID", "ISSUER", "f.dmg", 30⟩
        ⟨[], 5, [], "sub1",
         [("awsAccessKeyId", "AK"), ("awsSecretAccessKey", "SK"),
          ("awsSessionToken", "ST"), ("bucket", "B"), ("object", "O")],
         [PollStep.gotStatus "Accepted"], [], none, 1, 0⟩).2 = some 1 :=
  ⟨rfl, by decide, by decide⟩

/-- The stapling step emits no token-creation event. -/
theorem staple_filter_token (file : String) (rc1 rc2 : Nat) :
    (staple file rc1 rc2).1.filter isTokenCreatedEv = [] := by
  by_cases h1 : rc1 = 0 <;> by_cases h2 : rc2 = 0 <;>
    simp [staple, h1, h2, isTokenCreatedEv]

/-- The stapling step emits no token-carrying event. -/
theorem evTokenOf_staple (file : String) (rc1 rc2 : Nat) :
    ∀ ev ∈ (staple file rc1 rc2).1, evTokenOf ev = none := by
  intro ev hev
  by_cases h1 : rc1 = 0 <;> by_cases h2 : rc2 = 0 <;>
    simp [staple, h1, h2] at hev <;>
    first
      | (subst hev; rfl)
      | (rcases hev with rfl | rfl <;> rfl)

/-- C7: in a run that passes the dependency check, the credential token is
created exactly once, and every token-carrying event of the trace — the
submission creation, every polling request, and the log retrieval — uses
that very token. -/
theorem token_created_once_and_reused (args : Args) (env : Env)
    (hdeps : env.missingDeps = []) :
    ((mainRun args env).1.filter isTokenCreatedEv
        = [Event.tokenCreated (make_jwt args.key args.keyId args.issuerId env.now)])
      ∧ ∀ ev ∈ (mainRun args env).1, ∀ t, evTokenOf ev = some t
          → t = make_jwt args.key args.keyId args.issuerId env.now := by
  cases hup : upload_to_s3 env.uploadAttrs args.file with
  | none =>
    simp only [mainRun, hdeps, ne_eq, not_true_eq_false, if_false, hup]
    refine ⟨by simp [isTokenCreatedEv], ?_⟩
    intro ev hev t ht
    simp only [List.mem_cons, List.not_mem_nil, or_false] at hev
    rcases hev with rfl | rfl | rfl
    · simp only [evTokenOf, Option.some.injEq] at ht
      exact ht.symm
    · simp [evTokenOf] at ht
    · simp only [evTokenOf, Option.some.injEq] at ht
      exact ht.symm
  | some triple =>
    obtain ⟨cfg, bucket, obj⟩ := triple
    cases hpoll : poll_status (make_jwt args.key args.keyId args.issuerId env.now)
        args.pollInterval env.pollSteps with
    | error e =>
      simp only [mainRun, hdeps, ne_eq, not_true_eq_false, if_false, hup, hpoll]
      refine ⟨by simp [isTokenCreatedEv], ?_⟩
      intro ev hev t ht
      rcases List.mem_append.mp hev with h1 | hu
      · simp only [List.mem_cons, List.not_mem_nil, or_false] at h1
        rcases h1 with rfl | rfl | rfl
        · simp only [evTokenOf, Option.some.injEq] at ht
          exact ht.symm
        · simp [evTokenOf] at ht
        · simp only [evTokenOf, Option.some.injEq] at ht
          exact ht.symm
      · simp only [List.mem_cons, List.not_mem_nil, or_false] at hu
        subst hu
        simp [evTokenOf] at ht
    | ok pr =>
      obtain ⟨pevs, r⟩ := pr
      have hpevs : ∀ pe ∈ pevs, ∀ t, evTokenOf (Event.poll pe) = some t
          → t = make_jwt args.key args.keyId args.issuerId env.now := by
        intro pe hpe t ht
        cases pe with
        | request t2 =>
          simp only [evTokenOf, Option.some.injEq] at ht
          rw [← ht]
          exact pollGo_request_token
            (make_jwt args.key args.keyId args.issuerId env.now)
            args.pollInterval env.pollSteps 0 pevs r hpoll t2 hpe
        | printedStatus a s => simp [evTokenOf] at ht
        | caught a e => simp [evTokenOf] at ht
        | slept i => simp [evTokenOf] at ht
      cases r with
      | none =>
        simp only [mainRun, hdeps, ne_eq, not_true_eq_false, if_false, hup, hpoll]
        constructor
        · simp only [List.filter_append]
          rw [filter_map_none Event.poll isTokenCreatedEv pevs (fun pe => rfl)]
          simp [isTokenCreatedEv]
        · intro ev hev t ht
          rcases List.mem_append.mp hev with h2 | hpm
          · rcases List.mem_append.mp h2 with h1 | hu
            · simp only [List.mem_cons, List.not_mem_nil, or_false] at h1
              rcases h1 with rfl | rfl | rfl
              · simp only [evTokenOf, Option.some.injEq] at ht
                exact ht.symm
              · simp [evTokenOf] at ht
              · simp only [evTokenOf, Option.some.injEq] at ht
                exact ht.symm
            · simp only [List.mem_cons, List.not_mem_nil, or_false] at hu
              subst hu
              simp [evTokenOf] at ht
          · obtain ⟨pe, hpe, rfl⟩ := List.mem_map.mp hpm
            exact hpevs pe hpe t ht
      | some status =>
        rcases hlf : env.logFetchErr with _ | e2
        case some =>
          simp only [mainRun, hdeps, ne_eq, not_true_eq_false, if_false, hup,
            hpoll, hlf]
          constructor
          · simp only [List.filter_append]
            rw [filter_map_none Event.poll isTokenCreatedEv pevs (fun pe => rfl)]
            simp [isTokenCreatedEv]
          · intro ev hev t ht
            rcases List.mem_append.mp hev with h23 | hpf
            · rcases List.mem_append.mp h23 with h2 | hpm
              · rcases List.mem_append.mp h2 with h1 | hu
                · simp only [List.mem_cons, List.not_mem_nil, or_false] at h1
                  rcases h1 with rfl | rfl | rfl
                  · simp only [evTokenOf, Option.some.injEq] at ht
                    exact ht.symm
                  · simp [evTokenOf] at ht
                  · simp only [evTokenOf, Option.some.injEq] at ht
                    exact ht.symm
                · simp only [List.mem_cons, List.not_mem_nil, or_false] at hu
                  subst hu
                  simp [evTokenOf] at ht
              · obtain ⟨pe, hpe, rfl⟩ := List.mem_map.mp hpm
                exact hpevs pe hpe t ht
            · simp only [List.mem_cons, List.not_mem_nil, or_false] at hpf
              rcases hpf with rfl | rfl
              · simp [evTokenOf] at ht
              · simp only [evTokenOf, Option.some.injEq] at ht
                exact ht.symm
        case none =>
        by_cases hacc : status = "Accepted"
        · subst hacc
          simp only [mainRun, hdeps, ne_eq, not_true_eq_false, if_false, hup, hpoll,
            hlf, eq_self_iff_true, if_true]
          constructor
          · simp only [List.filter_append]
            rw [filter_map_none Event.poll isTokenCreatedEv pevs (fun pe => rfl),
              filter_map_none (fun i => Event.warningPrinted i.message i.path)
                isTokenCreatedEv
                (env.logIssues.filter (fun i => i.severity == "warning"))
                (fun i => rfl),
              staple_filter_token]
            simp [isTokenCreatedEv]
          · intro ev hev t ht
            rcases List.mem_append.mp hev with h4 | hst
            · rcases List.mem_append.mp h4 with h3 | hw
              · rcases List.mem_append.mp h3 with h23 | hpf
                · rcases List.mem_append.mp h23 with h2 | hpm
                  · rcases List.mem_append.mp h2 with h1 | hu
                    · simp only [List.mem_cons, List.not_mem_nil, or_false] at h1
                      rcases h1 with rfl | rfl | rfl
                      · simp only [evTokenOf, Option.some.injEq] at ht
                        exact ht.symm
                      · simp [evTokenOf] at ht
                      · simp only [evTokenOf, Option.some.injEq] at ht
                        exact ht.symm
                    · simp only [List.mem_cons, List.not_mem_nil, or_false] at hu
                      subst hu
                      simp [evTokenOf] at ht
                  · obtain ⟨pe, hpe, rfl⟩ := List.mem_map.mp hpm
                    exact hpevs pe hpe t ht
                · simp only [List.mem_cons, List.not_mem_nil, or_false] at hpf
                  rcases hpf with rfl | rfl
                  · simp [evTokenOf] at ht
                  · simp only [evTokenOf, Option.some.injEq] at ht
                    exact ht.symm
              · obtain ⟨i, hi, rfl⟩ := List.mem_map.mp hw
                simp [evTokenOf] at ht
            · rw [evTokenOf_staple args.file env.stapleRc env.validateRc ev hst] at ht
              simp at ht
        · simp only [mainRun, hdeps, ne_eq, not_true_eq_false, if_false, hup, hpoll,
            hlf, if_neg hacc]
          constructor
          · simp only [List.filter_append]
            rw [filter_map_none Event.poll isTokenCreatedEv pevs (fun pe => rfl),
              filter_map_none
                (fun i => Event.issuePrinted i.severity i.message i.path)
                isTokenCreatedEv env.logIssues (fun i => rfl)]
            simp [isTokenCreatedEv]
          · intro ev hev t ht
            rcases List.mem_append.mp hev with h3 | hi
            · rcases List.mem_append.mp h3 with h23 | hpf
              · rcases List.mem_append.mp h23 with h2 | hpm
                · rcases List.mem_append.mp h2 with h1 | hu
                  · simp only [List.mem_cons, List.not_mem_nil, or_false] at h1
                    rcases h1 with rfl | rfl | rfl
                    · simp only [evTokenOf, Option.some.injEq] at ht
                      exact ht.symm
                    · simp [evTokenOf] at ht
                    · simp only [evTokenOf, Option.some.injEq] at ht
                      exact ht.symm
                  · simp only [List.mem_cons, List.not_mem_nil, or_false] at hu
                    subst hu
                    simp [evTokenOf] at ht
                · obtain ⟨pe, hpe, rfl⟩ := List.mem_map.mp hpm
                  exact hpevs pe hpe t ht
              · simp only [List.mem_cons, List.not_mem_nil, or_false] at hpf
                rcases hpf with rfl | rfl
                · simp [evTokenOf] at ht
                · simp only [evTokenOf, Option.some.injEq] at ht
                  exact ht.symm
            · obtain ⟨i2, hi2, rfl⟩ := List.mem_map.mp hi
              simp [evTokenOf] at ht

/-- Witness for C7: the token of a complete accepted run. -/
theorem token_created_once_and_reused_witness :
    (mainRun ⟨"k.p8", "KEYID", "ISSUER", "f.dmg", 30⟩
        ⟨[], 7, [], "sub1",
         [("awsAccessKeyId", "AK"), ("awsSecretAccessKey", "SK"),
          ("awsSessionToken", "ST"), ("bucket", "B"), ("object", "O")],
         [PollStep.gotStatus "Accepted"], [], none, 0, 0⟩).1.filter isTokenCreatedEv
      = [Event.tokenCreated (make_jwt "k.p8" "KEYID" "ISSUER" 7)] :=
  (token_created_once_and_reused ⟨"k.p8", "KEYID", "ISSUER", "f.dmg", 30⟩
    ⟨[], 7, [], "sub1",
     [("awsAccessKeyId", "AK"), ("awsSecretAccessKey", "SK"),
      ("awsSessionToken", "ST"), ("bucket", "B"), ("object", "O")],
     [PollStep.gotStatus "Accepted"], [], none, 0, 0⟩ rfl).1
